import Mathlib

/-!
Shallow embedding of the version-sentinel repository (src/src/index.ts and
src/types.ts) in Lean 4, together with theorems settling the frozen claims
about its specification.

The program is a single class VersionChecker with mutable fields
versionTag : string | null, retryCount : number, timer : Timer | null, and a
listener registry.  We embed the mutable fields as an explicit state record
threaded through the operations, the fetch collaborator as a list of stubbed
outcomes consumed one per attempt, and event emission as a trace.  A second,
listener-threaded version of check models the dispatch of callbacks that may
throw, mirroring the try/catch in emit (src lines 329-343).
-/

namespace VersionSentinel

/-- Error values raised inside check: the synthesized HTTP-status error built
at src line 190, or an arbitrary error thrown or rejected by the fetch
collaborator (network failure and the like). -/
inductive JsError where
  | httpError (status : Nat) (statusText : String)
  | netError (msg : String)
deriving DecidableEq, Repr

/-- Response headers, as the finite map backing Headers.get.  Keys are taken
already lower-cased, matching the lookups the source performs. -/
abbrev Headers := List (String × String)

/-- Headers.get: the value of the named header, or null when absent. -/
def getHeader (hs : Headers) (name : String) : Option String :=
  (hs.find? (fun p => p.1 == name)).map Prod.snd

/-- JS truthiness of a string-or-null value: null and the empty string are
falsy, every other string is truthy. -/
def jsTruthy : Option String → Bool
  | none => false
  | some s => !(s == "")

/-- The JS expression a || b on string-or-null values: b whenever a is falsy
(null or the empty string), a otherwise. -/
def jsOr (a b : Option String) : Option String :=
  if jsTruthy a then a else b

/-- Marker extraction (src lines 195-209): the switch on compareStrategy.
The strategy is kept as a string, as in the source, so unrecognized values
take the default branch. -/
def extractTag (strategy : String) (hs : Headers) : Option String :=
  if strategy = "etag" then getHeader hs "etag"
  else if strategy = "last-modified" then getHeader hs "last-modified"
  else if strategy = "custom" then jsOr (getHeader hs "x-version") (getHeader hs "etag")
  else jsOr (getHeader hs "etag") (getHeader hs "last-modified")

/-- The VersionInfo record of src/types.ts. -/
structure VersionInfo where
  currentVersion : Option String
  newVersion : Option String
  updateAvailable : Bool
  timestamp : Nat
deriving DecidableEq, Repr

/-- The mutable fields of VersionChecker: versionTag (src line 54),
retryCount (src line 66) and the timer handle (src line 60, embedded as the
id handed out by the host when the interval was armed). -/
structure CheckerState where
  versionTag : Option String
  retryCount : Nat
  timer : Option Nat
deriving DecidableEq, Repr

/-- The Required version of VersionCheckerOptions (src/types.ts), with
compareStrategy kept as a string as the switch in check treats it. -/
structure Options where
  checkInterval : Nat
  versionUrl : String
  compareStrategy : String
  autoStart : Bool
  retryTimes : Nat
  retryInterval : Nat
deriving DecidableEq, Repr

/-- DEFAULT_OPTIONS (src lines 80-87). -/
def DEFAULT_OPTIONS : Options :=
  { checkInterval := 60000
    versionUrl := "/"
    compareStrategy := "etag"
    autoStart := true
    retryTimes := 3
    retryInterval := 3000 }

/-- compareVersion (src lines 304-320).  Builds the VersionInfo with
updateAvailable false, then: if the stored tag is null, seeds it with the new
tag; else if the new tag is non-null and differs, flags the update and stores
the new tag; else leaves the state alone.  Returns the info together with the
updated state (the source mutates this.versionTag). -/
def compareVersion (st : CheckerState) (newVersionTag : Option String) (now : Nat) :
    VersionInfo × CheckerState :=
  let versionInfo : VersionInfo :=
    { currentVersion := st.versionTag
      newVersion := newVersionTag
      updateAvailable := false
      timestamp := now }
  if st.versionTag = none then
    (versionInfo, { st with versionTag := newVersionTag })
  else if newVersionTag ≠ none ∧ newVersionTag ≠ st.versionTag then
    ({ versionInfo with updateAvailable := true }, { st with versionTag := newVersionTag })
  else
    (versionInfo, st)

/-- One stubbed outcome of the fetch collaborator: a rejected promise or
thrown error, or a response with its ok flag, status, status text and
headers. -/
inductive FetchOutcome where
  | reject (e : JsError)
  | response (ok : Bool) (status : Nat) (statusText : String) (headers : Headers)
deriving DecidableEq, Repr

/-- The outcome of one fetch attempt inside the try block (src lines
182-209): a rejected fetch propagates its error, a non-ok response raises
the synthesized HTTP error (src lines 189-193), and an ok response yields
the extracted marker. -/
def attemptResult (strategy : String) (f : FetchOutcome) : Except JsError (Option String) :=
  match f with
  | .reject e => .error e
  | .response ok status statusText headers =>
    if ok then .ok (extractTag strategy headers)
    else .error (.httpError status statusText)

/-- Events of the checker, with the payloads the source attaches:
check carries nothing, error carries the raised error, retry carries the
error and the incremented retry count (src line 224), update carries the
VersionInfo, start and stop carry nothing. -/
inductive Event where
  | check
  | error (e : JsError)
  | retry (e : JsError) (retryCount : Nat)
  | update (info : VersionInfo)
  | start
  | stop
deriving DecidableEq, Repr

/-- check (src lines 179-233), with emissions recorded as a trace.  Each
attempt consumes one stubbed fetch outcome; none is returned when the stub
list runs out before the call settles (a scenario outside any theorem below).
On success the result of compareVersion is returned, with an update event
when updateAvailable is set.  On failure, an error event is always emitted;
if retryCount is below retryTimes the counter is incremented, a retry event
is emitted, and check recurses; otherwise the counter is reset to 0 and the
original error is rethrown. -/
def check (cfg : Options) (now : Nat) :
    CheckerState → List FetchOutcome →
      Option (List Event × CheckerState × Except JsError VersionInfo)
  | _, [] => none
  | st, f :: rest =>
    match attemptResult cfg.compareStrategy f with
    | .ok newVersionTag =>
      let r := compareVersion st newVersionTag now
      let evs := if r.1.updateAvailable then [Event.check, Event.update r.1]
                 else [Event.check]
      some (evs, r.2, .ok r.1)
    | .error e =>
      if st.retryCount < cfg.retryTimes then
        let st1 : CheckerState := { st with retryCount := st.retryCount + 1 }
        match check cfg now st1 rest with
        | none => none
        | some (evs, st2, res) =>
          some ([Event.check, Event.error e, Event.retry e st1.retryCount] ++ evs, st2, res)
      else
        some ([Event.check, Event.error e], { st with retryCount := 0 }, .error e)

/-- start (src lines 138-146): no-op when a timer is armed; otherwise emits
a start event, fires one immediate check (fire-and-forget: its promise is not
awaited, so we record only the number of check invocations kicked off) and
arms the interval timer with a fresh handle from the host. -/
def startFn (st : CheckerState) (freshId : Nat) : CheckerState × List Event × Nat :=
  if st.timer.isSome then (st, [], 0)
  else ({ st with timer := some freshId }, [Event.start], 1)

/-- stop (src lines 166-172): when a timer is armed, clears it, nulls the
handle and emits a stop event; otherwise does nothing. -/
def stopFn (st : CheckerState) : CheckerState × List Event :=
  if st.timer.isSome then ({ st with timer := none }, [Event.stop])
  else (st, [])

/-- getTimerState (src lines 349-351). -/
def getTimerState (st : CheckerState) : Bool :=
  st.timer.isSome

/-! ## Listener model

A callback invocation in JS either returns or throws; emit (src lines
329-343) wraps every callback call in try/catch, logging a thrown error and
continuing with the remaining callbacks.  checkL is check with the listener
registry threaded through, recording for each emission the per-callback
logged results, and propagating a thrown error out of an emission exactly
where the source would let it escape (nowhere, as claim C8 establishes). -/

/-- Result of running a JS computation: a value, or a thrown error. -/
inductive JsResult (α : Type) where
  | ret (a : α)
  | thrown (e : JsError)
deriving DecidableEq, Repr

/-- A registered callback: receives the event (type plus payload) and either
returns or throws. -/
abbrev Callback := Event → JsResult Unit

/-- Listener registry: the callbacks registered for each event type name. -/
abbrev Registry := String → List Callback

/-- One callback invocation under the per-callback try/catch (src lines
337-341): a thrown error is caught and handed to the diagnostic log. -/
def caughtLog (ev : Event) (cb : Callback) : Option JsError :=
  match cb ev with
  | .ret _ => none
  | .thrown e => some e

/-- The forEach loop of emit (src lines 336-342): each callback runs under
its own try/catch; an uncaught throw from the remainder of the loop would
propagate. -/
def emitDispatch (ev : Event) : List Callback → JsResult (List (Option JsError))
  | [] => .ret []
  | cb :: rest =>
    let logged := caughtLog ev cb
    match emitDispatch ev rest with
    | .ret l => .ret (logged :: l)
    | .thrown e => .thrown e

/-- One recorded emission: the event together with the per-callback logged
results (none for a normal return, some e for a caught throw). -/
abbrev EmitRec := Event × List (Option JsError)

/-- The try block of check (src lines 180-218) with listeners threaded:
emit the check event, run the fetch attempt, and on success compare and
possibly emit the update event.  Returns the emissions so far, the state
after the block, and the result (a thrown error falls to the catch block). -/
def tryPart (reg : Registry) (strategy : String) (now : Nat) (st : CheckerState)
    (f : FetchOutcome) : List EmitRec × CheckerState × JsResult VersionInfo :=
  match emitDispatch Event.check (reg "check") with
  | .thrown e => ([], st, .thrown e)
  | .ret lc =>
    match attemptResult strategy f with
    | .error e => ([(Event.check, lc)], st, .thrown e)
    | .ok newVersionTag =>
      let r := compareVersion st newVersionTag now
      if r.1.updateAvailable then
        match emitDispatch (Event.update r.1) (reg "update") with
        | .thrown e => ([(Event.check, lc)], r.2, .thrown e)
        | .ret lu => ([(Event.check, lc), (Event.update r.1, lu)], r.2, .ret r.1)
      else
        ([(Event.check, lc)], r.2, .ret r.1)

/-- check (src lines 179-233) with the listener registry threaded through
every emission.  The catch block emits the error event, then either retries
(incrementing the counter, emitting the retry event and recursing) or resets
the counter and rethrows; a throw escaping one of the emissions in the catch
block would escape check itself. -/
def checkL (reg : Registry) (cfg : Options) (now : Nat) :
    CheckerState → List FetchOutcome →
      Option (List EmitRec × CheckerState × JsResult VersionInfo)
  | _, [] => none
  | st, f :: rest =>
    match tryPart reg cfg.compareStrategy now st f with
    | (recs, st1, .ret info) => some (recs, st1, .ret info)
    | (recs, st1, .thrown e) =>
      match emitDispatch (Event.error e) (reg "error") with
      | .thrown e2 => some (recs, st1, .thrown e2)
      | .ret le =>
        if st1.retryCount < cfg.retryTimes then
          let st2 : CheckerState := { st1 with retryCount := st1.retryCount + 1 }
          match emitDispatch (Event.retry e st2.retryCount) (reg "retry") with
          | .thrown e2 => some (recs ++ [(Event.error e, le)], st2, .thrown e2)
          | .ret lr =>
            match checkL reg cfg now st2 rest with
            | none => none
            | some (recs2, st3, res) =>
              some (recs ++ [(Event.error e, le), (Event.retry e st2.retryCount, lr)] ++ recs2,
                    st3, res)
        else
          some (recs ++ [(Event.error e, le)], { st1 with retryCount := 0 }, .thrown e)

/-- A JsResult seen from the caller of an async method: a resolved value or
a rejection carrying the error. -/
def jsToExcept {α : Type} : JsResult α → Except JsError α
  | .ret a => .ok a
  | .thrown e => .error e

/-! ## Definitions written from the words of the claims

specExtractTag restates claim C6 as written (fall back only when the
preferred header is absent); amendedExtractTag restates the amended claim
(fall back when the preferred header is absent or the empty string, the JS
falsiness the source's a || b exhibits). -/

/-- Marker extraction as claim C6 states it: the fallback header is taken
exactly when the preferred header is absent. -/
def specExtractTag (strategy : String) (hs : Headers) : Option String :=
  if strategy = "etag" then getHeader hs "etag"
  else if strategy = "last-modified" then getHeader hs "last-modified"
  else if strategy = "custom" then
    match getHeader hs "x-version" with
    | some v => some v
    | none => getHeader hs "etag"
  else
    match getHeader hs "etag" with
    | some v => some v
    | none => getHeader hs "last-modified"

/-- Marker extraction as the amended claim states it: the fallback header is
taken when the preferred header is absent or holds the empty string. -/
def amendedExtractTag (strategy : String) (hs : Headers) : Option String :=
  if strategy = "etag" then getHeader hs "etag"
  else if strategy = "last-modified" then getHeader hs "last-modified"
  else if strategy = "custom" then
    match getHeader hs "x-version" with
    | none => getHeader hs "etag"
    | some v => if v = "" then getHeader hs "etag" else some v
  else
    match getHeader hs "etag" with
    | none => getHeader hs "last-modified"
    | some v => if v = "" then getHeader hs "last-modified" else some v

/-! ## Trace and sequence helpers for the claim statements -/

/-- The expected emission trace of a run of failing attempts when the retry
counter starts at k: each attempt emits the check event, the error event,
and the retry event with the incremented counter. -/
def retryTrace : Nat → List JsError → List Event
  | _, [] => []
  | k, e :: rest =>
    Event.check :: Event.error e :: Event.retry e (k + 1) :: retryTrace (k + 1) rest

/-- The retry counters carried by the retry events of a trace, in order. -/
def retryCounts : List Event → List Nat
  | [] => []
  | Event.retry _ n :: rest => n :: retryCounts rest
  | _ :: rest => retryCounts rest

/-- The stored marker expected after a check call that settled with result
r, given the marker old stored before the call: unchanged on a rejection,
seeded on a first success, replaced on a success extracting a different
non-null marker, and unchanged otherwise.  Used to state claim C7. -/
def markerAfter (old : Option String) : Except JsError VersionInfo → Option String
  | .error _ => old
  | .ok info =>
    if old = none then info.newVersion
    else if info.newVersion ≠ none ∧ info.newVersion ≠ old then info.newVersion
    else old

/-- A sequence of calls to compareVersion, one per successful check, as the
marker extracted by each successive successful check comes in. -/
def compareSeq (now : Nat) : CheckerState → List (Option String) → CheckerState × List VersionInfo
  | st, [] => (st, [])
  | st, t :: ts =>
    let r := compareVersion st t now
    let rest := compareSeq now r.2 ts
    (rest.1, r.1 :: rest.2)

/-! ## Helper lemmas -/

/-- The JS a || b on string-or-null values, written as a case split on the
first operand: null falls through, the empty string falls through, any other
string is kept. -/
theorem jsOr_cases (a b : Option String) :
    jsOr a b = match a with
      | none => b
      | some v => if v = "" then b else some v := by
  cases a with
  | none => rfl
  | some v =>
    by_cases h : v = "" <;> simp [jsOr, jsTruthy, h]

/-- The VersionInfo built by compareVersion always carries the extracted
marker as newVersion, in every branch. -/
theorem compareVersion_newVersion (st : CheckerState) (tag : Option String) (now : Nat) :
    (compareVersion st tag now).1.newVersion = tag := by
  unfold compareVersion
  split_ifs <;> rfl

/-- How compareVersion updates the stored marker: seeded when it was null,
replaced when the extracted marker is non-null and different, kept
otherwise. -/
theorem compareVersion_versionTag (st : CheckerState) (tag : Option String) (now : Nat) :
    (compareVersion st tag now).2.versionTag =
      if st.versionTag = none then tag
      else if tag ≠ none ∧ tag ≠ st.versionTag then tag
      else st.versionTag := by
  unfold compareVersion
  split_ifs <;> rfl

/-- compareVersion never touches the retry counter or the timer handle. -/
theorem compareVersion_rest (st : CheckerState) (tag : Option String) (now : Nat) :
    (compareVersion st tag now).2.retryCount = st.retryCount
    ∧ (compareVersion st tag now).2.timer = st.timer := by
  unfold compareVersion
  split_ifs <;> exact ⟨rfl, rfl⟩

/-! ## Claims -/

/-- Claim C1 (code bug).  The claim says a successful completion of check
leaves the retry counter at 0, so a later failing check gets the full budget
of retryTimes retries.  The code resets the counter only on the exhausted
path: with the default retryTimes of 3, a check that fails once and then
succeeds completes successfully but leaves the counter at 1, and a
subsequent check that keeps failing emits only the two retries numbered 2
and 3 before rejecting. -/
theorem claim1_counter_not_reset_after_success :
    (check DEFAULT_OPTIONS 0 ⟨none, 0, none⟩
        [.reject (.netError "boom"), .response true 200 "OK" [("etag", "v1")]] =
      some ([Event.check, Event.error (.netError "boom"), Event.retry (.netError "boom") 1,
             Event.check],
            ⟨some "v1", 1, none⟩, .ok ⟨none, some "v1", false, 0⟩))
    ∧ (check DEFAULT_OPTIONS 0 ⟨some "v1", 1, none⟩
        [.reject (.netError "boom"), .reject (.netError "boom"), .reject (.netError "boom")] =
      some ([Event.check, Event.error (.netError "boom"), Event.retry (.netError "boom") 2,
             Event.check, Event.error (.netError "boom"), Event.retry (.netError "boom") 3,
             Event.check, Event.error (.netError "boom")],
            ⟨some "v1", 0, none⟩, .error (.netError "boom"))) :=
  ⟨rfl, rfl⟩

/-- Claim C3.  With retryTimes 0 any failing first attempt (rejected fetch,
thrown error, or non-ok response, all captured by attemptResult returning an
error) makes check consume exactly one fetch outcome, emit the error event
exactly once with the original error, emit no retry event, reset the counter
to 0 and rethrow the original error unchanged. -/
theorem claim3_retry_disabled_rejects_original (cfg : Options) (now : Nat)
    (st : CheckerState) (f : FetchOutcome) (e : JsError) (rest : List FetchOutcome)
    (h0 : cfg.retryTimes = 0)
    (hf : attemptResult cfg.compareStrategy f = .error e) :
    check cfg now st (f :: rest) =
      some ([Event.check, Event.error e], { st with retryCount := 0 }, .error e) := by
  simp [check, hf, h0]

/-- Witness for claim C3 at a concrete non-ok HTTP response. -/
theorem claim3_witness :
    check { DEFAULT_OPTIONS with retryTimes := 0 } 0 ⟨none, 5, none⟩
        [.response false 500 "Internal Server Error" [], .reject (.netError "later")] =
      some ([Event.check, Event.error (.httpError 500 "Internal Server Error")],
            ⟨none, 0, none⟩, .error (.httpError 500 "Internal Server Error")) :=
  claim3_retry_disabled_rejects_original { DEFAULT_OPTIONS with retryTimes := 0 } 0
    ⟨none, 5, none⟩ (.response false 500 "Internal Server Error" [])
    (.httpError 500 "Internal Server Error") [.reject (.netError "later")] rfl rfl

/-- Claim C4.  On a fresh instance (stored marker null) a successful check
returns updateAvailable false whatever marker was extracted (including
null), seeds the stored marker with the extracted value, and emits no
update event. -/
theorem claim4_first_success_seeds_marker (cfg : Options) (now : Nat)
    (st : CheckerState) (f : FetchOutcome) (tag : Option String)
    (hfresh : st.versionTag = none)
    (hf : attemptResult cfg.compareStrategy f = .ok tag) :
    check cfg now st [f] =
      some ([Event.check], { st with versionTag := tag }, .ok ⟨none, tag, false, now⟩) := by
  simp [check, hf, compareVersion, hfresh]

/-- Witness for claim C4, seeding from an etag header. -/
theorem claim4_witness :
    check DEFAULT_OPTIONS 7 ⟨none, 0, none⟩ [.response true 200 "OK" [("etag", "v")]] =
      some ([Event.check], ⟨some "v", 0, none⟩, .ok ⟨none, some "v", false, 7⟩) :=
  claim4_first_success_seeds_marker DEFAULT_OPTIONS 7 ⟨none, 0, none⟩
    (.response true 200 "OK" [("etag", "v")]) (some "v") rfl rfl

/-- Claim C5.  With stored marker a and a successful check extracting a
different non-null marker b, check returns updateAvailable true with
currentVersion a and newVersion b, stores b, and emits exactly one update
event carrying that result. -/
theorem claim5_update_detected (cfg : Options) (now : Nat) (st : CheckerState)
    (f : FetchOutcome) (a b : String)
    (hstored : st.versionTag = some a)
    (hf : attemptResult cfg.compareStrategy f = .ok (some b))
    (hne : b ≠ a) :
    check cfg now st [f] =
      some ([Event.check, Event.update ⟨some a, some b, true, now⟩],
            { st with versionTag := some b }, .ok ⟨some a, some b, true, now⟩) := by
  simp [check, hf, compareVersion, hstored, hne]

/-- Witness for claim C5 with markers a and b. -/
theorem claim5_witness :
    check DEFAULT_OPTIONS 3 ⟨some "a", 0, none⟩ [.response true 200 "OK" [("etag", "b")]] =
      some ([Event.check, Event.update ⟨some "a", some "b", true, 3⟩],
            ⟨some "b", 0, none⟩, .ok ⟨some "a", some "b", true, 3⟩) :=
  claim5_update_detected DEFAULT_OPTIONS 3 ⟨some "a", 0, none⟩
    (.response true 200 "OK" [("etag", "b")]) "a" "b" rfl rfl (by decide)

/-- Counterexample to claim C6 as stated.  The custom strategy is claimed to
fall back to the ETag header only when the x-version header is absent; the
source uses the JS a || b, which also falls back when x-version is present
but holds the empty string.  With x-version empty and etag W123, the code
extracts W123 while the claim as stated extracts the empty string. -/
theorem claim6_counterexample :
    extractTag "custom" [("x-version", ""), ("etag", "W123")] = some "W123"
    ∧ specExtractTag "custom" [("x-version", ""), ("etag", "W123")] = some ""
    ∧ extractTag "custom" [("x-version", ""), ("etag", "W123")] ≠
        specExtractTag "custom" [("x-version", ""), ("etag", "W123")] := by
  refine ⟨rfl, rfl, ?_⟩
  decide

/-- Amended claim C6.  The extraction rule holds once the fallback condition
is amended from absent to absent-or-empty (JS falsiness): etag and
last-modified take their header directly; custom takes x-version, falling
back to etag when x-version is absent or empty; any other strategy prefers
etag, falling back to last-modified when etag is absent or empty. -/
theorem claim6_extract_amended (strategy : String) (hs : Headers) :
    extractTag strategy hs = amendedExtractTag strategy hs := by
  unfold extractTag amendedExtractTag
  split_ifs <;> first | rfl | rw [jsOr_cases]

/-- Claim C9.  start while a timer is armed is a no-op (no start event, no
immediate check invocation, timer unchanged); a second start after a first
leaves exactly the one timer armed; stop without an armed timer is a no-op
emitting nothing; after any stop the timer state reads false; stop is safe
to repeat. -/
theorem claim9_start_stop_idempotent (vt : Option String) (rc t fid fid2 : Nat) :
    (startFn ⟨vt, rc, some t⟩ fid = (⟨vt, rc, some t⟩, [], 0))
    ∧ (startFn ⟨vt, rc, none⟩ fid = (⟨vt, rc, some fid⟩, [Event.start], 1))
    ∧ (startFn (startFn ⟨vt, rc, none⟩ fid).1 fid2 = ((startFn ⟨vt, rc, none⟩ fid).1, [], 0))
    ∧ (stopFn ⟨vt, rc, none⟩ = (⟨vt, rc, none⟩, []))
    ∧ (∀ st : CheckerState, getTimerState (stopFn st).1 = false)
    ∧ (∀ st : CheckerState, stopFn (stopFn st).1 = ((stopFn st).1, [])) := by
  refine ⟨rfl, rfl, rfl, rfl, ?_, ?_⟩
  · intro st
    rcases st with ⟨vt', rc', tm'⟩
    cases tm' <;> simp [stopFn, getTimerState]
  · intro st
    rcases st with ⟨vt', rc', tm'⟩
    cases tm' <;> simp [stopFn]

/-- Claim C10.  Starting from a null stored marker, any number k of
successful checks that extract a null marker leave the marker null and each
report updateAvailable false; the next successful check extracting a
non-null marker still takes the seeding branch, reporting updateAvailable
false while storing the marker. -/
theorem claim10_null_markers_keep_seeding (now k rc : Nat) (v : String) (tm : Option Nat) :
    compareSeq now ⟨none, rc, tm⟩ (List.replicate k none ++ [some v]) =
      (⟨some v, rc, tm⟩,
       List.replicate k ⟨none, none, false, now⟩ ++ [⟨none, some v, false, now⟩]) := by
  induction k with
  | zero => simp [compareSeq, compareVersion]
  | succ n ih =>
    have h1 : compareVersion ⟨none, rc, tm⟩ none now =
        (⟨none, none, false, now⟩, ⟨none, rc, tm⟩) := rfl
    simp only [List.replicate_succ, List.cons_append, compareSeq, h1, List.append_eq, ih]

/-- Claim C7.  Across one call to check, the stored marker changes only on a
successful result: it is seeded with the extracted marker when it was null,
replaced when the extracted marker is non-null and different, and in every
other case (rejection, extracted marker null, or extracted marker equal to
the stored one) it is unchanged. -/
theorem claim7_marker_change_characterization (cfg : Options) (now : Nat)
    (st : CheckerState) (fs : List FetchOutcome) (evs : List Event)
    (st2 : CheckerState) (r : Except JsError VersionInfo)
    (h : check cfg now st fs = some (evs, st2, r)) :
    st2.versionTag = markerAfter st.versionTag r := by
  induction fs generalizing st evs st2 r with
  | nil => simp [check] at h
  | cons f rest ih =>
    rw [check] at h
    cases hA : attemptResult cfg.compareStrategy f with
    | ok tag =>
      rw [hA] at h
      simp only [Option.some.injEq, Prod.mk.injEq] at h
      obtain ⟨-, hst, hr⟩ := h
      subst hst; subst hr
      simp only [markerAfter, compareVersion_newVersion, compareVersion_versionTag]
    | error e =>
      simp only [hA] at h
      by_cases hrc : st.retryCount < cfg.retryTimes
      · rw [if_pos hrc] at h
        cases hrec : check cfg now { st with retryCount := st.retryCount + 1 } rest with
        | none => rw [hrec] at h; exact absurd h (by simp)
        | some p =>
          rcases p with ⟨evs', st2', r'⟩
          rw [hrec] at h
          simp only [Option.some.injEq, Prod.mk.injEq] at h
          obtain ⟨-, hst, hr⟩ := h
          subst hst; subst hr
          exact ih { st with retryCount := st.retryCount + 1 } evs' st2' r' hrec
      · rw [if_neg hrc] at h
        simp only [Option.some.injEq, Prod.mk.injEq] at h
        obtain ⟨-, hst, hr⟩ := h
        subst hst; subst hr
        rfl

/-- Witness for claim C7: a failing first attempt followed by a successful
one that replaces the stored marker a by the extracted marker b. -/
theorem claim7_witness :
    (⟨some "b", 1, none⟩ : CheckerState).versionTag =
      markerAfter (⟨some "a", 0, none⟩ : CheckerState).versionTag
        (.ok ⟨some "a", some "b", true, 0⟩) :=
  claim7_marker_change_characterization DEFAULT_OPTIONS 0 ⟨some "a", 0, none⟩
    [.reject (.netError "x"), .response true 200 "OK" [("etag", "b")]]
    [Event.check, Event.error (.netError "x"), Event.retry (.netError "x") 1,
     Event.check, Event.update ⟨some "a", some "b", true, 0⟩]
    ⟨some "b", 1, none⟩ (.ok ⟨some "a", some "b", true, 0⟩) rfl

/-- The retry counters recorded in a run of failing attempts that starts at
counter k are exactly k+1, k+2, ..., k+length. -/
theorem retryCounts_retryTrace (errs : List JsError) :
    ∀ k : Nat, retryCounts (retryTrace k errs) = List.range' (k + 1) errs.length := by
  induction errs with
  | nil => intro k; rfl
  | cons e es ih =>
    intro k
    simp only [retryTrace, retryCounts, List.length_cons, List.range']
    exact congrArg (List.cons (k + 1)) (ih (k + 1))

/-- Running check on a run of failing attempts followed by anything else:
with the counter at k and enough retry budget for every failing attempt, the
whole run of failures is consumed, emitting the expected check, error and
retry events, the counter climbs to k plus the number of failures, and the
call continues on the remaining outcomes. -/
theorem check_fail_chain (cfg : Options) (now : Nat) (vt : Option String) (tm : Option Nat) :
    ∀ (fails : List FetchOutcome) (errs : List JsError) (k : Nat) (rest : List FetchOutcome),
      fails.map (attemptResult cfg.compareStrategy) = errs.map Except.error →
      k + fails.length ≤ cfg.retryTimes →
      check cfg now ⟨vt, k, tm⟩ (fails ++ rest) =
        (check cfg now ⟨vt, k + fails.length, tm⟩ rest).map
          (fun p => (retryTrace k errs ++ p.1, p.2)) := by
  intro fails
  induction fails with
  | nil =>
    intro errs k rest hmap _
    cases errs with
    | nil =>
      simp only [List.nil_append, List.length_nil, Nat.add_zero, retryTrace]
      cases hc : check cfg now ⟨vt, k, tm⟩ rest with
      | none => rfl
      | some p => simp
    | cons e es => simp at hmap
  | cons f fs ih =>
    intro errs k rest hmap hle
    cases errs with
    | nil => simp at hmap
    | cons e es =>
      simp only [List.map_cons, List.cons.injEq] at hmap
      obtain ⟨hA, hmap'⟩ := hmap
      have hk : k < cfg.retryTimes := by
        simp only [List.length_cons] at hle; omega
      have hle' : k + 1 + fs.length ≤ cfg.retryTimes := by
        simp only [List.length_cons] at hle; omega
      rw [List.cons_append, check]
      simp only [hA, hk, if_true]
      rw [show ({ (⟨vt, k, tm⟩ : CheckerState) with
            retryCount := (⟨vt, k, tm⟩ : CheckerState).retryCount + 1 } : CheckerState) =
          (⟨vt, k + 1, tm⟩ : CheckerState) from rfl]
      rw [ih es (k + 1) rest hmap' hle']
      rw [show k + 1 + fs.length = k + (fs.length + 1) from by omega]
      cases hc : check cfg now ⟨vt, k + (fs.length + 1), tm⟩ rest with
      | none => simp [hc]
      | some p =>
        simp only [hc, Option.map_some, List.length_cons, retryTrace]
        simp [List.append_assoc]

/-- Claim C2.  Starting a check with the counter at 0, a run of exactly
retryTimes failing attempts followed by a successful attempt resolves the
call with the result of the final attempt: the trace is the expected run of
check, error and retry events (each retry event directly preceded by the
error event carrying the same error) followed by the successful attempt,
and the retry events carry the increasing counters 1, 2, ..., retryTimes. -/
theorem claim2_retry_then_success (cfg : Options) (now : Nat) (vt : Option String)
    (tm : Option Nat) (fails : List FetchOutcome) (errs : List JsError)
    (f : FetchOutcome) (tag : Option String)
    (_hpos : 0 < cfg.retryTimes)
    (hmap : fails.map (attemptResult cfg.compareStrategy) = errs.map Except.error)
    (hlen : fails.length = cfg.retryTimes)
    (hf : attemptResult cfg.compareStrategy f = .ok tag) :
    (check cfg now ⟨vt, 0, tm⟩ (fails ++ [f]) =
      some (retryTrace 0 errs ++
              (if (compareVersion ⟨vt, cfg.retryTimes, tm⟩ tag now).1.updateAvailable then
                 [Event.check, Event.update (compareVersion ⟨vt, cfg.retryTimes, tm⟩ tag now).1]
               else [Event.check]),
            (compareVersion ⟨vt, cfg.retryTimes, tm⟩ tag now).2,
            .ok (compareVersion ⟨vt, cfg.retryTimes, tm⟩ tag now).1))
    ∧ retryCounts (retryTrace 0 errs) = List.range' 1 cfg.retryTimes
    ∧ errs.length = cfg.retryTimes := by
  have hlen' : errs.length = cfg.retryTimes := by
    have hl := congrArg List.length hmap
    simp only [List.length_map] at hl
    omega
  refine ⟨?_, ?_, hlen'⟩
  · rw [check_fail_chain cfg now vt tm fails errs 0 [f] hmap (by omega)]
    rw [show (0 : Nat) + fails.length = cfg.retryTimes from by omega]
    rw [check]
    simp only [hf, Option.map_some]
    by_cases hU : (compareVersion ⟨vt, cfg.retryTimes, tm⟩ tag now).1.updateAvailable
    · simp [hU]
    · simp [hU]
  · rw [retryCounts_retryTrace errs 0, hlen']

/-- Witness for claim C2 with retryTimes 2: a rejected fetch, then a non-ok
response, then a successful response. -/
theorem claim2_witness :
    (check { DEFAULT_OPTIONS with retryTimes := 2 } 0 ⟨none, 0, none⟩
        ([.reject (.netError "x"), .response false 500 "ISE" []] ++
          [.response true 200 "OK" [("etag", "v")]]) =
      some (retryTrace 0 [.netError "x", .httpError 500 "ISE"] ++
              (if (compareVersion ⟨none, 2, none⟩ (some "v") 0).1.updateAvailable then
                 [Event.check, Event.update (compareVersion ⟨none, 2, none⟩ (some "v") 0).1]
               else [Event.check]),
            (compareVersion ⟨none, 2, none⟩ (some "v") 0).2,
            .ok (compareVersion ⟨none, 2, none⟩ (some "v") 0).1))
    ∧ retryCounts (retryTrace 0 [.netError "x", .httpError 500 "ISE"]) = List.range' 1 2
    ∧ ([JsError.netError "x", JsError.httpError 500 "ISE"] : List JsError).length = 2 :=
  claim2_retry_then_success { DEFAULT_OPTIONS with retryTimes := 2 } 0 none none
    [.reject (.netError "x"), .response false 500 "ISE" []]
    [.netError "x", .httpError 500 "ISE"]
    (.response true 200 "OK" [("etag", "v")]) (some "v")
    (by decide) rfl rfl rfl

/-- The forEach with a per-callback try/catch never lets a throw escape and
invokes every callback: the result is a normal return holding one logged
entry per registered callback, in order. -/
theorem emitDispatch_ret (ev : Event) :
    ∀ cbs : List Callback, emitDispatch ev cbs = .ret (cbs.map (caughtLog ev)) := by
  intro cbs
  induction cbs with
  | nil => rfl
  | cons cb rest ih => simp [emitDispatch, ih]

/-- checkL with any listener registry settles exactly as the listener-free
check does: same event sequence, same final state, and the same resolution
or rejection (so a rejection always carries the original fetch or HTTP
error, never a listener error). -/
theorem checkL_proj (reg : Registry) (cfg : Options) (now : Nat) :
    ∀ (fs : List FetchOutcome) (st : CheckerState),
      (checkL reg cfg now st fs).map
          (fun p => (p.1.map Prod.fst, p.2.1, jsToExcept p.2.2)) =
        check cfg now st fs := by
  intro fs
  induction fs with
  | nil => intro st; rfl
  | cons f rest ih =>
    intro st
    rw [checkL, check]
    cases hA : attemptResult cfg.compareStrategy f with
    | ok tag =>
      simp only [tryPart, emitDispatch_ret, hA]
      cases hU : (compareVersion st tag now).1.updateAvailable with
      | true => simp [hU, emitDispatch_ret, jsToExcept]
      | false => simp [hU, jsToExcept]
    | error e =>
      simp only [tryPart, emitDispatch_ret, hA]
      by_cases hrc : st.retryCount < cfg.retryTimes
      · simp only [hrc, if_true]
        cases hre : checkL reg cfg now { st with retryCount := st.retryCount + 1 } rest with
        | none =>
          have hch := ih { st with retryCount := st.retryCount + 1 }
          rw [hre] at hch
          simp [hre, ← hch]
        | some p =>
          rcases p with ⟨recs2, st3, res⟩
          have hch := ih { st with retryCount := st.retryCount + 1 }
          rw [hre] at hch
          simp [hre, ← hch, jsToExcept]
      · simp [hrc, jsToExcept]

/-- Claim C8.  Event dispatch is isolated from the checker logic: every
registered callback for an emission is invoked even when an earlier one
throws (one logged slot per callback, a caught error recorded in place),
the emission itself always returns normally instead of propagating the
listener error, and threading any registry of possibly-throwing listeners
through check leaves its events, final state and settlement unchanged, so a
caller observing a rejection receives the original fetch or HTTP error. -/
theorem claim8_listener_errors_isolated :
    (∀ (ev : Event) (cbs : List Callback),
        emitDispatch ev cbs = .ret (cbs.map (caughtLog ev)))
    ∧ ∀ (reg : Registry) (cfg : Options) (now : Nat) (st : CheckerState)
        (fs : List FetchOutcome),
        (checkL reg cfg now st fs).map
            (fun p => (p.1.map Prod.fst, p.2.1, jsToExcept p.2.2)) =
          check cfg now st fs :=
  ⟨emitDispatch_ret, fun reg cfg now st fs => checkL_proj reg cfg now fs st⟩

end VersionSentinel
